import Mathlib

/-!
Shallow embedding of the mcpp-unique-any library: the handler-based heap
container `mcpp::unique_any` (2022 header with small-buffer optimization),
the fixed-capacity `mcpp::inplace_unique_any<SIZE, ALIGN>`, the legacy
virtual-dispatch `mcpp::unique_any` (include/mcpp/unique_any.hpp), and the
typed-cast layer shared by all of them.

Values of arbitrary C++ object types are abstracted as `Obj`: a type
footprint (`CType`, carrying the typeid tag together with sizeof and
alignof) plus the object's contents (a `Nat`) and a moved-from flag.
`void` is excluded from `CType` since no container can hold a value of
type void; a container's `type()` observer therefore returns
`Option CType`, with `none` playing the role of `typeid(void)`.
Relocation (the handler / vtable `move` operation: nothrow
move-construction into the destination followed by destruction of the
source, or a plain pointer transfer for the heap default handler) is
value-preserving, so it transports an `Obj` unchanged.

Throwing C++ functions are embedded as `Except`-valued functions; the
noexcept ones are plain total functions.
-/

namespace Mcpp

/-- Footprint of a C++ object type: its typeid tag (types are equal iff their
tags are), `sizeof` and `alignof`. Only object types are represented; `void`
(which no container can hold, and which the in-place cast layer rejects with
`static_assert(!std::is_void_v<T>)`) is not a `CType`. -/
structure CType where
  tag : Nat
  size : Nat
  align : Nat
deriving DecidableEq, Repr

/-- A live C++ object stored in a container: its type, its contents
(abstracted to a `Nat`), and whether it has been moved from. -/
structure Obj where
  ty : CType
  contents : Nat
  movedFrom : Bool
deriving DecidableEq, Repr

/-- The `std::bad_any_cast` error thrown by the reference/value forms of
`any_cast` on `mcpp::unique_any`; it carries no payload. -/
inductive CastError where
  | bad_any_cast
deriving DecidableEq, Repr

/-- The `mcpp::bad_inplace_unique_any_cast` error thrown by the
reference/value forms of `any_cast` on `mcpp::inplace_unique_any`. -/
inductive InplaceCastError where
  | bad_inplace_unique_any_cast
deriving DecidableEq, Repr

/-- Value-lifecycle events used to record the observable order of operations
during move assignment: `install o` is the moment the value `o` becomes the
destination container's held value, `destroy o` is the moment the value `o`'s
lifetime ends (its destructor runs on a live, not moved-from, object). -/
inductive Ev where
  | destroy (o : Obj)
  | install (o : Obj)
deriving DecidableEq, Repr

/-- Decides whether the event `e` occurs in the trace `tr`. -/
def containsEv (tr : List Ev) (e : Ev) : Bool :=
  match tr with
  | [] => false
  | x :: rest => if x = e then true else containsEv rest e

/-- Decides whether the event `d` occurs strictly before the event `i` in the
trace `tr` (looking at the first occurrence of either). -/
def beforeB (tr : List Ev) (d i : Ev) : Bool :=
  match tr with
  | [] => false
  | e :: rest => if e = d then containsEv rest i else if e = i then false else beforeB rest d i

/-!
The handler-based heap container `mcpp::unique_any` (part of the 2022
header): `h_ : handle_func = nullptr` iff the container is empty; the
handler (small_buffer_handler or default_handler, chosen per type) plus the
union storage `s_` are abstracted as the held `Obj`. `has_value()` is
`h_ != nullptr`, so the state is exactly an `Option Obj`.
-/

/-- State of an `mcpp::unique_any`: `slot = none` models `h_ == nullptr`
(empty), `slot = some o` models a bound handler with `o` in storage. -/
structure UniqueAny where
  slot : Option Obj
deriving DecidableEq, Repr

namespace UniqueAny

/-- `has_value()`: `h_ != nullptr`. -/
def has_value (a : UniqueAny) : Bool := a.slot.isSome

/-- `type()`: the handler's `action::typeinfo` result when a value is held,
otherwise `typeid(void)` (modelled as `none`). -/
def type (a : UniqueAny) : Option CType := a.slot.map Obj.ty

/-- `reset()`: destroy the held value if any (`call(action::destroy)`) and
clear `h_`. -/
def reset (_a : UniqueAny) : UniqueAny := ⟨none⟩

/-- The events emitted when a container is destroyed (`~unique_any` calls
`reset()`): the held value's lifetime ends. -/
def dtorEvents (a : UniqueAny) : List Ev :=
  match a.slot with
  | some o => [Ev.destroy o]
  | none => []

/-- The handler `action::move`: `small_buffer_handler<T>::move` does
`create(dest, std::move(value)); destroy(self)` (a nothrow relocation), and
`default_handler<T>::move` transfers the owning pointer and the handler.
Both leave `self` empty and `dest` holding the relocated object. The code
only invokes this with `self.h_ != nullptr`. Returns (self after, dest
after). -/
def moveAction (self _dest : UniqueAny) : UniqueAny × UniqueAny :=
  (⟨none⟩, ⟨self.slot⟩)

/-- Relocation events for the swap trace: which container relocates into
which, from the member function's point of view (`this`, `other`, and the
temporary relay). -/
inductive Loc where
  | this
  | other
  | temp
deriving DecidableEq, Repr

/-- One `action::move` call during `swap`, recorded as source/destination. -/
structure Reloc where
  src : Loc
  dst : Loc
deriving DecidableEq, Repr

/-- `unique_any::swap(other)` for `this ≠ &other` (`x` plays `*this`, `y`
plays `other`), also recording each `action::move` call:
if both are non-empty, a temporary empty container relays
(`other.call(move, &tmp); this->call(move, &other); tmp.call(move, this)`);
if only `this` is non-empty, `this->call(move, &other)`; if only `other` is
non-empty, `other.call(move, this)`; otherwise nothing happens. The function
is noexcept, modelled by totality. -/
def swapTr (x y : UniqueAny) : UniqueAny × UniqueAny × List Reloc :=
  match x.slot, y.slot with
  | some _, some _ =>
    let tmp : UniqueAny := ⟨none⟩
    let (y1, tmp1) := moveAction y tmp
    let (x1, y2) := moveAction x y1
    let (_tmp2, x2) := moveAction tmp1 x1
    (x2, y2, [⟨Loc.other, Loc.temp⟩, ⟨Loc.this, Loc.other⟩, ⟨Loc.temp, Loc.this⟩])
  | some _, none =>
    let (x1, y1) := moveAction x y
    (x1, y1, [⟨Loc.this, Loc.other⟩])
  | none, some _ =>
    let (y1, x1) := moveAction y x
    (x1, y1, [⟨Loc.other, Loc.this⟩])
  | none, none => (x, y, [])

/-- `unique_any::swap(other)` when `this == &other`: the guard
`if (this == &other) return;` makes it a no-op. -/
def swapSelf (a : UniqueAny) : UniqueAny := a

/-- `unique_any(unique_any &&other)`: `if (other.h_ != nullptr)
other.call(action::move, this);`. Returns (constructed object, other
after). -/
def moveCtor (other : UniqueAny) : UniqueAny × UniqueAny :=
  match other.slot with
  | some _ =>
    let (other1, this1) := moveAction other ⟨none⟩
    (this1, other1)
  | none => (⟨none⟩, other)

/-- `unique_any::operator=(unique_any &&rhs)` for `this ≠ &rhs`:
`unique_any(std::move(rhs)).swap(*this); return *this;`. The temporary is
destroyed at the end of the full expression, which is when whatever value it
then holds (the destination's previous value, if any) is destroyed. The
trace records installations into `*this` and value destructions in order:
the single relocation of `rhs`'s old value into `*this` happens inside the
swap, before the temporary's destructor runs. Returns (this after, rhs
after, events). -/
def moveAssignTr (self rhs : UniqueAny) : UniqueAny × UniqueAny × List Ev :=
  let (tmp, rhs1) := moveCtor rhs
  let (tmp1, self1, _) := swapTr tmp self
  let installs :=
    match tmp.slot with
    | some r => [Ev.install r]
    | none => []
  (self1, rhs1, installs ++ dtorEvents tmp1)

/-- `unique_any::operator=(unique_any &&rhs)` when `&rhs == this`
(self-move-assignment): `unique_any(std::move(*this)).swap(*this)`. The
temporary and `*this` are distinct objects, so the move constructor empties
`*this` into the temporary and the plain two-object swap then moves the
value back; the temporary is destroyed empty. -/
def moveAssignSelf (a : UniqueAny) : UniqueAny :=
  let (tmp, a1) := moveCtor a
  let (_tmp1, a2, _) := swapTr tmp a1
  a2

/-- `unique_any::emplace<ValueType>(args...)` (part_004): `reset();` then
`handler<T>::create(*this, args...)` constructs `T(args...)` in storage
(small buffer or heap), binds `h_` to `handler<T>::handle`, and returns a
reference to the new value. `T` with contents `c` abstracts the constructed
object. Returns (container after, the returned reference's object). -/
def emplace (T : CType) (c : Nat) (a : UniqueAny) : UniqueAny × Obj :=
  let a1 := a.reset
  let o : Obj := ⟨T, c, false⟩
  ({ a1 with slot := some o }, o)

end UniqueAny

/-- `any_cast<T>(unique_any *operand)` and its const overload (part_004
(4)/(5)): `operand && operand->type() == typeid(T) ?
operand->unsafe_cast<T>() : nullptr`. The returned typed pointer refers to
the object in storage; `none` models `nullptr`. The operand pointer itself
is `Option UniqueAny` (`none` = null pointer). Declared noexcept, modelled
by totality. -/
def anyCastPtr (T : CType) (operand : Option UniqueAny) : Option Obj :=
  match operand with
  | some a => if a.type = some T then a.slot else none
  | none => none

/-- `any_cast<T>(const unique_any &operand)` (part_004 (1)): delegates to the
const pointer form with `U = remove_cv_t<remove_reference_t<T>>`; on nullptr
throws `std::bad_any_cast`, otherwise returns `static_cast<T>(*ptr)`, a copy
constructed from the held value. Returns (result, operand after); the
operand is const and never modified. -/
def anyCastCref (T : CType) (a : UniqueAny) : Except CastError Obj × UniqueAny :=
  match anyCastPtr T (some a) with
  | some o => (Except.ok ⟨o.ty, o.contents, false⟩, a)
  | none => (Except.error CastError.bad_any_cast, a)

/-- `any_cast<T>(unique_any &operand)` (part_004 (2)): delegates to the
pointer form; on nullptr throws `std::bad_any_cast`, otherwise returns
`static_cast<T>(*ptr)` — for `T = U&` a reference to the held object itself.
Returns (result, operand after); the operand is not modified. -/
def anyCastLref (T : CType) (a : UniqueAny) : Except CastError Obj × UniqueAny :=
  match anyCastPtr T (some a) with
  | some o => (Except.ok o, a)
  | none => (Except.error CastError.bad_any_cast, a)

/-- `any_cast<T>(unique_any &&operand)` (part_004 (3)): delegates to the
pointer form; on nullptr throws `std::bad_any_cast`, otherwise returns
`static_cast<T>(std::move(*ptr))` — the result is move-constructed from the
held object, which is left in its moved-from state while `h_` (and hence
`has_value()` and `type()`) is untouched. Returns (result, operand
after). -/
def anyCastRval (T : CType) (a : UniqueAny) : Except CastError Obj × UniqueAny :=
  match anyCastPtr T (some a) with
  | some o => (Except.ok ⟨o.ty, o.contents, false⟩, ⟨some ⟨o.ty, o.contents, true⟩⟩)
  | none => (Except.error CastError.bad_any_cast, a)

/-!
The fixed-capacity container `mcpp::inplace_unique_any<SIZE, ALIGN>`
(appended to src/README.md): an `alignas(ALIGN) std::array<std::byte, SIZE>`
buffer plus a pointer to the per-type static vtable
`{destroy, move, type_info}`; `vtable_ == nullptr` iff empty. The
`static_assert(sizeof(T) <= SIZE)` / `static_assert(alignof(T) <= ALIGN)`
checks in every value-accepting constructor, the templated assignment and
both emplace overloads are compile-time rejections; they are modelled by
`Option`-valued operations where `none` means the program does not compile,
so no container state is ever produced.
-/

/-- State of an `mcpp::inplace_unique_any<SIZE, ALIGN>`: `slot = none`
models `vtable_ == nullptr` (empty), `slot = some o` models a bound vtable
with `o` constructed in the buffer. `SIZE` and `ALIGN` appear as arguments
of the operations that check them. -/
structure InplaceAny where
  slot : Option Obj
deriving DecidableEq, Repr

namespace InplaceAny

/-- `has_value()`: `vtable_ != nullptr`. -/
def has_value (a : InplaceAny) : Bool := a.slot.isSome

/-- `type()`: `*vtable_->type_info` when a value is held, otherwise
`typeid(void)` (modelled as `none`). -/
def type (a : InplaceAny) : Option CType := a.slot.map Obj.ty

/-- `reset()`: `if (vtable_) { vtable_->destroy(buffer_.data()); vtable_ =
nullptr; }`. -/
def reset (_a : InplaceAny) : InplaceAny := ⟨none⟩

/-- Events emitted by `reset()` (also run by the destructor): the held
value's lifetime ends. -/
def resetEvents (a : InplaceAny) : List Ev :=
  match a.slot with
  | some o => [Ev.destroy o]
  | none => []

/-- `inplace_unique_any(U &&value)` (README (4)): `static_assert(sizeof(T)
<= SIZE)` and `static_assert(alignof(T) <= ALIGN)`, then `new
(buffer_.data()) T(std::forward<U>(value)); vtable_ = &vtable_for<T>();`.
`none` models the static_assert firing (compile-time rejection, no object is
ever built). -/
def ctorValue (SIZE ALIGN : Nat) (T : CType) (c : Nat) : Option InplaceAny :=
  if T.size ≤ SIZE ∧ T.align ≤ ALIGN then some ⟨some ⟨T, c, false⟩⟩ else none

/-- `inplace_unique_any(std::in_place_type_t<ValueType>, args...)` (README
(5), and (6) with an initializer list): same static size/alignment asserts,
then placement-construct `T(args...)` in the buffer and bind the vtable.
`none` models compile-time rejection. -/
def ctorInPlace (SIZE ALIGN : Nat) (T : CType) (c : Nat) : Option InplaceAny :=
  if T.size ≤ SIZE ∧ T.align ≤ ALIGN then some ⟨some ⟨T, c, false⟩⟩ else none

/-- `operator=(U &&value)` (README (3)): same static asserts, then
`reset(); new (buffer_.data()) T(std::forward<U>(value)); vtable_ =
&vtable_for<T>();`. `none` models compile-time rejection (the destination is
then untouched since the program never runs). -/
def assignValue (SIZE ALIGN : Nat) (T : CType) (c : Nat) (a : InplaceAny) :
    Option InplaceAny :=
  if T.size ≤ SIZE ∧ T.align ≤ ALIGN then
    let a1 := a.reset
    some { a1 with slot := some ⟨T, c, false⟩ }
  else none

/-- `emplace<ValueType>(args...)` (README (1), and (2) with an initializer
list): same static asserts, then `reset();` placement-construct
`T(args...)`, bind the vtable, and return a reference to the new value.
Returns (container after, the returned reference's object); `none` models
compile-time rejection. -/
def emplace (SIZE ALIGN : Nat) (T : CType) (c : Nat) (a : InplaceAny) :
    Option (InplaceAny × Obj) :=
  if T.size ≤ SIZE ∧ T.align ≤ ALIGN then
    let a1 := a.reset
    let o : Obj := ⟨T, c, false⟩
    some ({ a1 with slot := some o }, o)
  else none

/-- `inplace_unique_any(inplace_unique_any &&other)` (README (3) ctor): if
`other.vtable_ != nullptr`, `other.vtable_->move(buffer_.data(),
other.buffer_.data()); vtable_ = std::exchange(other.vtable_, nullptr);
vtable_->destroy(other.buffer_.data());` — a relocation leaving `other`
empty. Returns (constructed object, other after). -/
def moveCtor (other : InplaceAny) : InplaceAny × InplaceAny :=
  match other.slot with
  | some o => (⟨some o⟩, ⟨none⟩)
  | none => (⟨none⟩, other)

/-- `operator=(inplace_unique_any &&other)` for `this ≠ &other` (README
(2)): inside the `if (this != &other)` guard, `reset();` first destroys any
value already held by the destination, then (if `other.vtable_ !=
nullptr`) the move-constructor body relocates `other`'s value into the
buffer. The trace records the destination's old value dying before the new
value is installed. Returns (this after, other after, events). -/
def moveAssignTr (self other : InplaceAny) : InplaceAny × InplaceAny × List Ev :=
  let destroys := resetEvents self
  match other.slot with
  | some o => (⟨some o⟩, ⟨none⟩, destroys ++ [Ev.install o])
  | none => (⟨none⟩, other, destroys)

/-- `operator=(inplace_unique_any &&other)` when `&other == this`: the
`if (this != &other)` guard skips the whole body, leaving `*this`
unchanged. -/
def moveAssignSelf (a : InplaceAny) : InplaceAny := a

/-- `swap(other)` for `this ≠ &other` (`x` plays `*this`, `y` plays
`other`): the guard returns if both are empty; if `*this` is empty,
`*this = std::move(other)`; if `other` is empty, `other = std::move(*this)`;
otherwise the held objects are exchanged through an on-stack
`alignas(ALIGN) std::array<std::byte, SIZE>` temporary
(`this→temp, destroy this; other→this, destroy other; temp→other, destroy
temp`) and `std::swap(this->vtable_, other.vtable_)`. noexcept, modelled by
totality. -/
def swapDistinct (x y : InplaceAny) : InplaceAny × InplaceAny :=
  if x.slot = none ∧ y.slot = none then (x, y)
  else if x.slot = none then
    let (x1, y1, _) := moveAssignTr x y
    (x1, y1)
  else if y.slot = none then
    let (y1, x1, _) := moveAssignTr y x
    (x1, y1)
  else
    (⟨y.slot⟩, ⟨x.slot⟩)

/-- `swap(other)` when `this == &other`: the guard returns immediately. -/
def swapSelf (a : InplaceAny) : InplaceAny := a

end InplaceAny

/-- `any_cast<T>(inplace_unique_any<S, A> *operand)` and its const overload
(README (4)/(5)): `static_assert(!std::is_void_v<T>)`, then `operand &&
operand->type() == typeid(T) ? reinterpret_cast<T *>(operand->buffer_.data())
: nullptr`. noexcept, modelled by totality. -/
def inplaceAnyCastPtr (T : CType) (operand : Option InplaceAny) : Option Obj :=
  match operand with
  | some a => if a.type = some T then a.slot else none
  | none => none

/-- `any_cast<T>(const inplace_unique_any<S, A> &operand)` (README (1)):
delegates to the const pointer form; on nullptr throws
`bad_inplace_unique_any_cast`, otherwise returns `static_cast<T>(*ptr)`, a
copy of the held value. The operand is const and never modified. -/
def inplaceAnyCastCref (T : CType) (a : InplaceAny) :
    Except InplaceCastError Obj × InplaceAny :=
  match inplaceAnyCastPtr T (some a) with
  | some o => (Except.ok ⟨o.ty, o.contents, false⟩, a)
  | none => (Except.error InplaceCastError.bad_inplace_unique_any_cast, a)

/-- `any_cast<T>(inplace_unique_any<S, A> &operand)` (README (2)): delegates
to the pointer form; on nullptr throws `bad_inplace_unique_any_cast`,
otherwise returns `static_cast<T>(*ptr)` — for `T = U&` a reference to the
held object itself. The operand is not modified. -/
def inplaceAnyCastLref (T : CType) (a : InplaceAny) :
    Except InplaceCastError Obj × InplaceAny :=
  match inplaceAnyCastPtr T (some a) with
  | some o => (Except.ok o, a)
  | none => (Except.error InplaceCastError.bad_inplace_unique_any_cast, a)

/-- `any_cast<T>(inplace_unique_any<S, A> &&operand)` (README (3)):
delegates to the pointer form; on nullptr throws
`bad_inplace_unique_any_cast`, otherwise returns
`static_cast<T>(std::move(*ptr))` — the result is move-constructed from the
held object, which is left moved-from while `vtable_` (hence `has_value()`
and `type()`) is untouched. -/
def inplaceAnyCastRval (T : CType) (a : InplaceAny) :
    Except InplaceCastError Obj × InplaceAny :=
  match inplaceAnyCastPtr T (some a) with
  | some o => (Except.ok ⟨o.ty, o.contents, false⟩, ⟨some ⟨o.ty, o.contents, true⟩⟩)
  | none => (Except.error InplaceCastError.bad_inplace_unique_any_cast, a)

/-!
The legacy virtual-dispatch `mcpp::unique_any` (include/mcpp/unique_any.hpp,
2022): `state_ : std::unique_ptr<interface>` pointing to a heap-allocated
`model<T>` that stores the value and exposes `type()` and `pointer()`.
-/

/-- State of the legacy `mcpp::unique_any`: `state_ = none` models a null
`unique_ptr<interface>`, `state_ = some o` a heap-allocated `model<T>`
holding `o`. -/
structure LegacyUniqueAny where
  state_ : Option Obj
deriving DecidableEq, Repr

/-- `emplace<ValueType>(args...)` of include/mcpp/unique_any.hpp (both
overloads have the same shape): the body is only
`state_.reset(new model<std::decay_t<ValueType>>(args...));` — the new
`model` is constructed first and the previously held state is then destroyed
by `unique_ptr::reset`. The function is declared to return
`std::decay_t<ValueType> &` but contains NO return statement, so control
flows off the end of a value-returning function (undefined behavior in C++)
and no reference to the new value is returned; the returned reference is
modelled as `none`. Returns (container after, returned reference). -/
def LegacyUniqueAny.emplace (T : CType) (c : Nat) (_a : LegacyUniqueAny) :
    LegacyUniqueAny × Option Obj :=
  (⟨some ⟨T, c, false⟩⟩, none)

/-- Reachable states of an `inplace_unique_any<N, A>`: every public
operation of the class, starting from the default constructor. Rejected
(non-compiling) constructions produce no state. -/
inductive InplaceAny.Reach (N A : Nat) : InplaceAny → Prop where
  | protected default : InplaceAny.Reach N A ⟨none⟩
  | ctorValue {T c s} : InplaceAny.ctorValue N A T c = some s → InplaceAny.Reach N A s
  | ctorInPlace {T c s} : InplaceAny.ctorInPlace N A T c = some s → InplaceAny.Reach N A s
  | assign {T c s t} : InplaceAny.Reach N A s → InplaceAny.assignValue N A T c s = some t →
      InplaceAny.Reach N A t
  | protected emplace {T c s t o} : InplaceAny.Reach N A s →
      InplaceAny.emplace N A T c s = some (t, o) → InplaceAny.Reach N A t
  | protected reset {s} : InplaceAny.Reach N A s → InplaceAny.Reach N A s.reset
  | moveCtorDst {s} : InplaceAny.Reach N A s → InplaceAny.Reach N A (InplaceAny.moveCtor s).1
  | moveCtorSrc {s} : InplaceAny.Reach N A s → InplaceAny.Reach N A (InplaceAny.moveCtor s).2
  | moveAssignDst {s t} : InplaceAny.Reach N A s → InplaceAny.Reach N A t →
      InplaceAny.Reach N A (InplaceAny.moveAssignTr s t).1
  | moveAssignSrc {s t} : InplaceAny.Reach N A s → InplaceAny.Reach N A t →
      InplaceAny.Reach N A (InplaceAny.moveAssignTr s t).2.1
  | swapL {s t} : InplaceAny.Reach N A s → InplaceAny.Reach N A t →
      InplaceAny.Reach N A (InplaceAny.swapDistinct s t).1
  | swapR {s t} : InplaceAny.Reach N A s → InplaceAny.Reach N A t →
      InplaceAny.Reach N A (InplaceAny.swapDistinct s t).2
  | rvalCast {T s} : InplaceAny.Reach N A s →
      InplaceAny.Reach N A (inplaceAnyCastRval T s).2

/-- A sample object type standing in for `int`: tag 1, sizeof 4, alignof 4. -/
def intT : CType := ⟨1, 4, 4⟩

/-- A sample object type standing in for `std::string`: tag 2, sizeof 32,
alignof 8. -/
def strT : CType := ⟨2, 32, 8⟩

/-- A sample object type too large for an 8-byte buffer: sizeof 100,
alignof 64. -/
def bigT : CType := ⟨3, 100, 64⟩

/-- Sample held object `A` used by concrete counterexamples. -/
def objA : Obj := ⟨⟨4, 8, 8⟩, 10, false⟩

/-- Sample held object `B` used by concrete counterexamples. -/
def objB : Obj := ⟨⟨5, 8, 8⟩, 20, false⟩

/-!
Helper lemmas about the pointer-form casts.
-/

theorem anyCastPtr_eq_some_iff (T : CType) (p : Option UniqueAny) (o : Obj) :
    anyCastPtr T p = some o ↔ ∃ a, p = some a ∧ a.slot = some o ∧ o.ty = T := by
  cases p with
  | none => simp [anyCastPtr]
  | some a =>
    cases h : a.slot with
    | none => simp [anyCastPtr, UniqueAny.type, h]
    | some o' =>
      have hval : anyCastPtr T (some a) = if o'.ty = T then some o' else none := by
        simp [anyCastPtr, UniqueAny.type, h]
      by_cases hT : o'.ty = T
      · rw [hval, if_pos hT]
        constructor
        · intro ho
          injection ho with ho
          refine ⟨a, rfl, ?_, ho ▸ hT⟩
          rw [ho] at h; exact h
        · rintro ⟨a', ha', hs, -⟩
          injection ha' with he; subst he
          rw [h] at hs
          exact hs
      · rw [hval, if_neg hT]
        constructor
        · intro hfalse; cases hfalse
        · rintro ⟨a', ha', hs, hoT⟩
          injection ha' with he; subst he
          rw [h] at hs
          injection hs with hs
          rw [← hs] at hoT
          exact absurd hoT hT

theorem inplaceAnyCastPtr_eq_some_iff (T : CType) (q : Option InplaceAny) (o : Obj) :
    inplaceAnyCastPtr T q = some o ↔ ∃ b, q = some b ∧ b.slot = some o ∧ o.ty = T := by
  cases q with
  | none => simp [inplaceAnyCastPtr]
  | some b =>
    cases h : b.slot with
    | none => simp [inplaceAnyCastPtr, InplaceAny.type, h]
    | some o' =>
      have hval : inplaceAnyCastPtr T (some b) = if o'.ty = T then some o' else none := by
        simp [inplaceAnyCastPtr, InplaceAny.type, h]
      by_cases hT : o'.ty = T
      · rw [hval, if_pos hT]
        constructor
        · intro ho
          injection ho with ho
          refine ⟨b, rfl, ?_, ho ▸ hT⟩
          rw [ho] at h; exact h
        · rintro ⟨b', hb', hs, -⟩
          injection hb' with he; subst he
          rw [h] at hs
          exact hs
      · rw [hval, if_neg hT]
        constructor
        · intro hfalse; cases hfalse
        · rintro ⟨b', hb', hs, hoT⟩
          injection hb' with he; subst he
          rw [h] at hs
          injection hs with hs
          rw [← hs] at hoT
          exact absurd hoT hT

theorem anyCastPtr_of_held {T : CType} {a : UniqueAny} {o : Obj}
    (h : a.slot = some o) (hT : o.ty = T) : anyCastPtr T (some a) = some o := by
  simp [anyCastPtr, UniqueAny.type, h, hT]

theorem inplaceAnyCastPtr_of_held {T : CType} {b : InplaceAny} {o : Obj}
    (h : b.slot = some o) (hT : o.ty = T) : inplaceAnyCastPtr T (some b) = some o := by
  simp [inplaceAnyCastPtr, InplaceAny.type, h, hT]

theorem anyCastPtr_eq_none_iff (T : CType) (a : UniqueAny) :
    anyCastPtr T (some a) = none ↔ ∀ o, a.slot = some o → o.ty ≠ T := by
  cases h : a.slot with
  | none => simp [anyCastPtr, UniqueAny.type, h]
  | some o' =>
    by_cases hT : o'.ty = T
    · simp [anyCastPtr, UniqueAny.type, h, hT]
    · simp [anyCastPtr, UniqueAny.type, h, hT]

theorem inplaceAnyCastPtr_eq_none_iff (T : CType) (b : InplaceAny) :
    inplaceAnyCastPtr T (some b) = none ↔ ∀ o, b.slot = some o → o.ty ≠ T := by
  cases h : b.slot with
  | none => simp [inplaceAnyCastPtr, InplaceAny.type, h]
  | some o' =>
    by_cases hT : o'.ty = T
    · simp [inplaceAnyCastPtr, InplaceAny.type, h, hT]
    · simp [inplaceAnyCastPtr, InplaceAny.type, h, hT]

/-- C1: for both variants, for every requested type `T` and every
possibly-null container pointer, the pointer-form `any_cast<T>` returns a
pointer to the held value exactly when the pointer is non-null, the
container holds a value, and the held type tag equals `typeid(T)`; in every
other case it returns `nullptr`. Never throwing is modelled by
`anyCastPtr`/`inplaceAnyCastPtr` being total `Option`-valued functions. -/
theorem C1_pointer_cast_iff (T : CType) (p : Option UniqueAny) (q : Option InplaceAny)
    (o : Obj) :
    (anyCastPtr T p = some o ↔ ∃ a, p = some a ∧ a.slot = some o ∧ o.ty = T) ∧
    (inplaceAnyCastPtr T q = some o ↔ ∃ b, q = some b ∧ b.slot = some o ∧ o.ty = T) :=
  ⟨anyCastPtr_eq_some_iff T p o, inplaceAnyCastPtr_eq_some_iff T q o⟩

/-- Witness for C1 at a concrete input: a heap container holding an `int` 7,
cast to `int`, yields a pointer to that value. -/
theorem C1_pointer_cast_iff_w :
    anyCastPtr intT (some ⟨some ⟨intT, 7, false⟩⟩) = some ⟨intT, 7, false⟩ :=
  ((C1_pointer_cast_iff intT (some ⟨some ⟨intT, 7, false⟩⟩) none ⟨intT, 7, false⟩).1).mpr
    ⟨⟨some ⟨intT, 7, false⟩⟩, rfl, rfl, rfl⟩

/-- C2: for both variants, the const-lvalue, lvalue and rvalue forms of
`any_cast<T>` throw the bad-cast error exactly when the delegated
pointer-form cast returns `nullptr`, which happens exactly when the
container is empty or the held type tag differs from `typeid(T)`; on success
they return a copy of, a reference to, or a move of the held value. -/
theorem C2_ref_value_casts_delegate (T : CType) (a : UniqueAny) (b : InplaceAny) :
    ((anyCastCref T a).1 = Except.error CastError.bad_any_cast ↔
      anyCastPtr T (some a) = none) ∧
    ((anyCastLref T a).1 = Except.error CastError.bad_any_cast ↔
      anyCastPtr T (some a) = none) ∧
    ((anyCastRval T a).1 = Except.error CastError.bad_any_cast ↔
      anyCastPtr T (some a) = none) ∧
    (anyCastPtr T (some a) = none ↔ ∀ o, a.slot = some o → o.ty ≠ T) ∧
    (∀ o, a.slot = some o → o.ty = T →
      (anyCastCref T a).1 = Except.ok ⟨o.ty, o.contents, false⟩ ∧
      (anyCastLref T a).1 = Except.ok o ∧
      (anyCastRval T a).1 = Except.ok ⟨o.ty, o.contents, false⟩) ∧
    ((inplaceAnyCastCref T b).1 = Except.error InplaceCastError.bad_inplace_unique_any_cast ↔
      inplaceAnyCastPtr T (some b) = none) ∧
    ((inplaceAnyCastLref T b).1 = Except.error InplaceCastError.bad_inplace_unique_any_cast ↔
      inplaceAnyCastPtr T (some b) = none) ∧
    ((inplaceAnyCastRval T b).1 = Except.error InplaceCastError.bad_inplace_unique_any_cast ↔
      inplaceAnyCastPtr T (some b) = none) ∧
    (inplaceAnyCastPtr T (some b) = none ↔ ∀ o, b.slot = some o → o.ty ≠ T) ∧
    (∀ o, b.slot = some o → o.ty = T →
      (inplaceAnyCastCref T b).1 = Except.ok ⟨o.ty, o.contents, false⟩ ∧
      (inplaceAnyCastLref T b).1 = Except.ok o ∧
      (inplaceAnyCastRval T b).1 = Except.ok ⟨o.ty, o.contents, false⟩) := by
  refine ⟨?_, ?_, ?_, anyCastPtr_eq_none_iff T a, ?_, ?_, ?_, ?_,
    inplaceAnyCastPtr_eq_none_iff T b, ?_⟩
  · cases hc : anyCastPtr T (some a) <;> simp [anyCastCref, hc]
  · cases hc : anyCastPtr T (some a) <;> simp [anyCastLref, hc]
  · cases hc : anyCastPtr T (some a) <;> simp [anyCastRval, hc]
  · intro o hs hT
    have hc := anyCastPtr_of_held hs hT
    exact ⟨by simp [anyCastCref, hc], by simp [anyCastLref, hc], by simp [anyCastRval, hc]⟩
  · cases hc : inplaceAnyCastPtr T (some b) <;> simp [inplaceAnyCastCref, hc]
  · cases hc : inplaceAnyCastPtr T (some b) <;> simp [inplaceAnyCastLref, hc]
  · cases hc : inplaceAnyCastPtr T (some b) <;> simp [inplaceAnyCastRval, hc]
  · intro o hs hT
    have hc := inplaceAnyCastPtr_of_held hs hT
    exact ⟨by simp [inplaceAnyCastCref, hc], by simp [inplaceAnyCastLref, hc],
      by simp [inplaceAnyCastRval, hc]⟩

/-- Witness for C2 at a concrete input: casting a heap container holding a
string to `int` throws `bad_any_cast`, and the lvalue cast on a matching
container returns the held value. -/
theorem C2_ref_value_casts_delegate_w :
    (anyCastCref intT ⟨some ⟨strT, 3, false⟩⟩).1 = Except.error CastError.bad_any_cast ∧
    (anyCastLref intT ⟨some ⟨intT, 7, false⟩⟩).1 = Except.ok ⟨intT, 7, false⟩ :=
  ⟨(C2_ref_value_casts_delegate intT ⟨some ⟨strT, 3, false⟩⟩ ⟨none⟩).1.mpr (by decide),
    ((C2_ref_value_casts_delegate intT ⟨some ⟨intT, 7, false⟩⟩ ⟨none⟩).2.2.2.2.1
      ⟨intT, 7, false⟩ rfl rfl).2.1⟩

/-- C3 counterexample: heap-variant move assignment `b = std::move(a)` with
`b` holding `objB` and `a` holding `objA` is `unique_any(std::move(a)).swap(b)`;
the value trace shows `objA` installed into `b` first and `objB` destroyed only
afterwards (when the temporary of `operator=` dies at the end of the full
expression), so the destination's previously held value is NOT destroyed
before the transfer, contradicting the claim at this input. -/
theorem C3_counterexample_heap_destroys_after :
    UniqueAny.moveAssignTr ⟨some objB⟩ ⟨some objA⟩ =
      (⟨some objA⟩, ⟨none⟩, [Ev.install objA, Ev.destroy objB]) ∧
    beforeB [Ev.install objA, Ev.destroy objB] (Ev.destroy objB) (Ev.install objA) = false := by
  decide

/-- C3 (amended): for both variants, move construction and move assignment
leave the source empty and the destination holding the source's prior value
(same type tag and contents), and move assignment destroys the value
previously held by the destination exactly once during the operation; the
in-place variant destroys it before the transfer (its `operator=` calls
`reset()` first), while the heap variant relocates it into a temporary and
destroys it after the transfer. -/
theorem C3_move_transfers_value (r s : Obj) :
    UniqueAny.moveCtor ⟨some r⟩ = (⟨some r⟩, ⟨none⟩) ∧
    InplaceAny.moveCtor ⟨some r⟩ = (⟨some r⟩, ⟨none⟩) ∧
    UniqueAny.moveAssignTr ⟨some s⟩ ⟨some r⟩ =
      (⟨some r⟩, ⟨none⟩, [Ev.install r, Ev.destroy s]) ∧
    UniqueAny.moveAssignTr ⟨none⟩ ⟨some r⟩ = (⟨some r⟩, ⟨none⟩, [Ev.install r]) ∧
    InplaceAny.moveAssignTr ⟨some s⟩ ⟨some r⟩ =
      (⟨some r⟩, ⟨none⟩, [Ev.destroy s, Ev.install r]) ∧
    InplaceAny.moveAssignTr ⟨none⟩ ⟨some r⟩ = (⟨some r⟩, ⟨none⟩, [Ev.install r]) ∧
    beforeB [Ev.destroy s, Ev.install r] (Ev.destroy s) (Ev.install r) = true ∧
    beforeB [Ev.install r, Ev.destroy s] (Ev.destroy s) (Ev.install r) = false := by
  refine ⟨rfl, rfl, rfl, rfl, rfl, rfl, ?_, ?_⟩
  · simp [beforeB, containsEv]
  · simp [beforeB]

/-- C4: for both variants, swapping two distinct containers exchanges their
states exactly in all four occupancy cases (both holding, one holding, both
empty), and self-swap is a no-op. -/
theorem C4_swap_exchanges (x y : Option Obj) :
    (UniqueAny.swapTr ⟨x⟩ ⟨y⟩).1 = ⟨y⟩ ∧
    (UniqueAny.swapTr ⟨x⟩ ⟨y⟩).2.1 = ⟨x⟩ ∧
    UniqueAny.swapSelf ⟨x⟩ = ⟨x⟩ ∧
    InplaceAny.swapDistinct ⟨x⟩ ⟨y⟩ = (⟨y⟩, ⟨x⟩) ∧
    InplaceAny.swapSelf ⟨x⟩ = ⟨x⟩ := by
  cases x <;> cases y <;>
    simp [UniqueAny.swapTr, UniqueAny.swapSelf, UniqueAny.moveAction,
      InplaceAny.swapDistinct, InplaceAny.swapSelf, InplaceAny.moveAssignTr,
      InplaceAny.resetEvents]

/-- C5 (code bug in include/mcpp/unique_any.hpp): at the failing input, the
legacy `emplace<int>(5)` installs the new value and rebinds the state but
returns no reference to it (the function is declared `-> std::decay_t<ValueType>&`
yet its body has no return statement), while the part_004 heap `emplace` and
the in-place `emplace` both return the reference to the newly constructed
value as the claim states. -/
theorem C5_legacy_emplace_missing_return :
    (LegacyUniqueAny.emplace intT 5 ⟨none⟩).1 = ⟨some ⟨intT, 5, false⟩⟩ ∧
    (LegacyUniqueAny.emplace intT 5 ⟨none⟩).2 = none ∧
    UniqueAny.emplace intT 5 ⟨some ⟨strT, 9, false⟩⟩ =
      (⟨some ⟨intT, 5, false⟩⟩, ⟨intT, 5, false⟩) ∧
    InplaceAny.emplace 8 8 intT 5 ⟨some ⟨intT, 9, false⟩⟩ =
      some (⟨some ⟨intT, 5, false⟩⟩, ⟨intT, 5, false⟩) := by
  decide

/-- C6: for both variants, a successful rvalue-form `any_cast` moves the
held value out (the result is move-constructed from it) without clearing the
container: afterwards `has_value()` is still true, `type()` is still the
held type's tag, and the held object is left in its moved-from state. -/
theorem C6_rvalue_cast_keeps_occupied (a : UniqueAny) (b : InplaceAny) (o p : Obj)
    (ha : a.slot = some o) (hb : b.slot = some p) :
    (anyCastRval o.ty a).1 = Except.ok ⟨o.ty, o.contents, false⟩ ∧
    (anyCastRval o.ty a).2.has_value = true ∧
    (anyCastRval o.ty a).2.type = some o.ty ∧
    (anyCastRval o.ty a).2.slot = some ⟨o.ty, o.contents, true⟩ ∧
    (inplaceAnyCastRval p.ty b).1 = Except.ok ⟨p.ty, p.contents, false⟩ ∧
    (inplaceAnyCastRval p.ty b).2.has_value = true ∧
    (inplaceAnyCastRval p.ty b).2.type = some p.ty ∧
    (inplaceAnyCastRval p.ty b).2.slot = some ⟨p.ty, p.contents, true⟩ := by
  have h1 : anyCastPtr o.ty (some a) = some o := anyCastPtr_of_held ha rfl
  have h2 : inplaceAnyCastPtr p.ty (some b) = some p := inplaceAnyCastPtr_of_held hb rfl
  simp [anyCastRval, inplaceAnyCastRval, h1, h2, UniqueAny.has_value, UniqueAny.type,
    InplaceAny.has_value, InplaceAny.type]

/-- Witness for C6 at a concrete input: after an rvalue cast of a heap
container holding an `int` 7, the container still reports a value. -/
theorem C6_rvalue_cast_keeps_occupied_w :
    (anyCastRval intT ⟨some ⟨intT, 7, false⟩⟩).2.has_value = true :=
  (C6_rvalue_cast_keeps_occupied ⟨some ⟨intT, 7, false⟩⟩ ⟨some ⟨intT, 7, false⟩⟩
    ⟨intT, 7, false⟩ ⟨intT, 7, false⟩ rfl rfl).2.1

/-- The in-place swap of two distinct containers always exchanges the two
held states, whichever of the four occupancy cases applies. -/
theorem InplaceAny.swapDistinct_spec (x y : InplaceAny) :
    InplaceAny.swapDistinct x y = (⟨y.slot⟩, ⟨x.slot⟩) := by
  rcases x with ⟨x⟩; rcases y with ⟨y⟩
  cases x <;> cases y <;>
    simp [InplaceAny.swapDistinct, InplaceAny.moveAssignTr, InplaceAny.resetEvents]

/-- C7 counterexample: with both sides non-empty, the heap-variant swap
relays through the temporary in the opposite direction from the claim: the
code performs `other.call(move, &tmp); this->call(move, &other);
tmp.call(move, this)`, i.e. other→temp, this→other, temp→this — not the
claimed this→temp, other→this, temp→other. -/
theorem C7_counterexample_relay_direction :
    (UniqueAny.swapTr ⟨some objA⟩ ⟨some objB⟩).2.2 =
      [⟨UniqueAny.Loc.other, UniqueAny.Loc.temp⟩, ⟨UniqueAny.Loc.this, UniqueAny.Loc.other⟩,
        ⟨UniqueAny.Loc.temp, UniqueAny.Loc.this⟩] ∧
    (UniqueAny.swapTr ⟨some objA⟩ ⟨some objB⟩).2.2 ≠
      [⟨UniqueAny.Loc.this, UniqueAny.Loc.temp⟩, ⟨UniqueAny.Loc.other, UniqueAny.Loc.this⟩,
        ⟨UniqueAny.Loc.temp, UniqueAny.Loc.other⟩] := by
  decide

/-- C7 (amended): the heap-variant swap handles its four cases — both empty
is a no-op, self-swap is a no-op, one side empty relocates the non-empty
side's value into the empty side leaving the source empty, and when both
sides are non-empty it relays through a temporary empty container performing
the sequence: move other→temp, then this→other, then temp→this — after which
the two containers hold each other's prior values; the whole operation is
nothrow (`swapTr` is a total function, matching the noexcept declaration). -/
theorem C7_heap_swap_algorithm (ox oy : Obj) :
    UniqueAny.swapTr ⟨some ox⟩ ⟨some oy⟩ =
      (⟨some oy⟩, ⟨some ox⟩,
        [⟨UniqueAny.Loc.other, UniqueAny.Loc.temp⟩, ⟨UniqueAny.Loc.this, UniqueAny.Loc.other⟩,
          ⟨UniqueAny.Loc.temp, UniqueAny.Loc.this⟩]) ∧
    UniqueAny.swapTr ⟨some ox⟩ ⟨none⟩ =
      (⟨none⟩, ⟨some ox⟩, [⟨UniqueAny.Loc.this, UniqueAny.Loc.other⟩]) ∧
    UniqueAny.swapTr ⟨none⟩ ⟨some oy⟩ =
      (⟨some oy⟩, ⟨none⟩, [⟨UniqueAny.Loc.other, UniqueAny.Loc.this⟩]) ∧
    UniqueAny.swapTr ⟨none⟩ ⟨none⟩ = (⟨none⟩, ⟨none⟩, []) ∧
    UniqueAny.swapSelf ⟨some ox⟩ = ⟨some ox⟩ := by
  exact ⟨rfl, rfl, rfl, rfl, rfl⟩

/-- Every reachable state of an `inplace_unique_any<N, A>` holds only values
whose size is at most `N` and whose alignment is at most `A`: the
size/alignment static_asserts guard every operation that introduces a new
value, and all other operations only relocate, mark moved-from, or destroy
existing values. -/
theorem InplaceAny.reach_bounds {N A : Nat} {s : InplaceAny}
    (hr : InplaceAny.Reach N A s) :
    ∀ o : Obj, s.slot = some o → o.ty.size ≤ N ∧ o.ty.align ≤ A := by
  induction hr with
  | @default => intro o hs; cases hs
  | ctorValue h =>
    intro o hs
    rw [InplaceAny.ctorValue] at h
    split at h
    · next hc =>
      injection h with h; subst h
      injection hs with hs; subst hs
      exact hc
    · cases h
  | ctorInPlace h =>
    intro o hs
    rw [InplaceAny.ctorInPlace] at h
    split at h
    · next hc =>
      injection h with h; subst h
      injection hs with hs; subst hs
      exact hc
    · cases h
  | assign hr h ih =>
    intro o hs
    rw [InplaceAny.assignValue] at h
    split at h
    · next hc =>
      injection h with h; subst h
      injection hs with hs; subst hs
      exact hc
    · cases h
  | @emplace T c s t o hr h ih =>
    intro o' hs
    rw [InplaceAny.emplace] at h
    split at h
    · next hc =>
      injection h with h
      injection h with h1 h2; subst h1
      injection hs with hs; subst hs
      exact hc
    · cases h
  | @reset s hr ih => intro o hs; cases hs
  | @moveCtorDst s hr ih =>
    intro o hs
    cases h : s.slot with
    | some o' =>
      rw [InplaceAny.moveCtor, h] at hs
      injection hs with hs; subst hs
      exact ih o' h
    | none =>
      rw [InplaceAny.moveCtor, h] at hs
      cases hs
  | @moveCtorSrc s hr ih =>
    intro o hs
    cases h : s.slot with
    | some o' => rw [InplaceAny.moveCtor, h] at hs; cases hs
    | none => rw [InplaceAny.moveCtor, h] at hs; rw [h] at hs; cases hs
  | @moveAssignDst s t hr ht ihs iht =>
    intro o hs
    cases h : t.slot with
    | some o' =>
      rw [InplaceAny.moveAssignTr, h] at hs
      injection hs with hs; subst hs
      exact iht o' h
    | none =>
      rw [InplaceAny.moveAssignTr, h] at hs
      cases hs
  | @moveAssignSrc s t hr ht ihs iht =>
    intro o hs
    cases h : t.slot with
    | some o' => rw [InplaceAny.moveAssignTr, h] at hs; cases hs
    | none => rw [InplaceAny.moveAssignTr, h] at hs; rw [h] at hs; cases hs
  | @swapL s t hr ht ihs iht =>
    intro o hs
    rw [InplaceAny.swapDistinct_spec] at hs
    exact iht o hs
  | @swapR s t hr ht ihs iht =>
    intro o hs
    rw [InplaceAny.swapDistinct_spec] at hs
    exact ihs o hs
  | @rvalCast T s hr ih =>
    intro o hs
    cases h : s.slot with
    | some o' =>
      by_cases hT : o'.ty = T
      · have hptr := inplaceAnyCastPtr_of_held h hT
        rw [inplaceAnyCastRval, hptr] at hs
        injection hs with hs; subst hs
        exact ih o' h
      · have hptr : inplaceAnyCastPtr T (some s) = none := by
          rw [inplaceAnyCastPtr_eq_none_iff]
          intro o2 h2
          rw [h] at h2; injection h2 with h2; subst h2
          exact hT
        rw [inplaceAnyCastRval, hptr] at hs
        exact ih o hs
    | none =>
      have hptr : inplaceAnyCastPtr T (some s) = none := by
        rw [inplaceAnyCastPtr_eq_none_iff]
        intro o2 h2
        rw [h] at h2; cases h2
      rw [inplaceAnyCastRval, hptr] at hs
      exact ih o hs

/-- C8: for the in-place variant with capacity `N` and alignment `A`, every
value-storing constructor, templated assignment, and emplace of a type with
size exceeding `N` or alignment exceeding `A` is rejected statically (the
operation yields no state at all, modelling the static_assert firing before
any object is built, with no heap fallback), and consequently no reachable
in-place container ever holds a value whose size exceeds `N` or whose
alignment exceeds `A`. -/
theorem C8_inplace_static_bounds (N A : Nat) (T : CType) (c : Nat) (s : InplaceAny)
    (hr : InplaceAny.Reach N A s) :
    (¬(T.size ≤ N ∧ T.align ≤ A) →
      InplaceAny.ctorValue N A T c = none ∧
      InplaceAny.ctorInPlace N A T c = none ∧
      InplaceAny.assignValue N A T c s = none ∧
      InplaceAny.emplace N A T c s = none) ∧
    (∀ o : Obj, s.slot = some o → o.ty.size ≤ N ∧ o.ty.align ≤ A) := by
  refine ⟨?_, InplaceAny.reach_bounds hr⟩
  intro hviol
  refine ⟨?_, ?_, ?_, ?_⟩ <;>
    simp [InplaceAny.ctorValue, InplaceAny.ctorInPlace, InplaceAny.assignValue,
      InplaceAny.emplace, hviol]

/-- Witness for C8 at concrete inputs: an oversized type (sizeof 100,
alignof 64) is rejected by an `inplace_unique_any<8, 8>`, and a reachable
container of that instantiation holding an `int` satisfies the bounds. -/
theorem C8_inplace_static_bounds_w :
    InplaceAny.ctorValue 8 8 bigT 3 = none ∧
    ((⟨1, 4, 4⟩ : CType).size ≤ 8 ∧ (⟨1, 4, 4⟩ : CType).align ≤ 8) := by
  have hr : InplaceAny.Reach 8 8 ⟨some ⟨intT, 3, false⟩⟩ :=
    InplaceAny.Reach.ctorValue (T := intT) (c := 3) (by decide)
  exact ⟨((C8_inplace_static_bounds 8 8 bigT 3 _ hr).1 (by decide)).1,
    (C8_inplace_static_bounds 8 8 bigT 3 _ hr).2 ⟨intT, 3, false⟩ rfl⟩

/-- C9: for both variants, self-move-assignment `a = std::move(a)` leaves
`a` unchanged: the in-place variant's `operator=` is guarded by
`this != &other`, and the heap variant round-trips the held value through
the temporary of `unique_any(std::move(rhs)).swap(*this)` back into `a`. -/
theorem C9_self_move_assign_noop (x : Option Obj) :
    UniqueAny.moveAssignSelf ⟨x⟩ = ⟨x⟩ ∧ InplaceAny.moveAssignSelf ⟨x⟩ = ⟨x⟩ := by
  cases x <;>
    simp [UniqueAny.moveAssignSelf, UniqueAny.moveCtor, UniqueAny.swapTr,
      UniqueAny.moveAction, InplaceAny.moveAssignSelf]

/-- C10: for both variants, when a const-lvalue, lvalue or rvalue form of
`any_cast<T>` fails with the bad-cast error, the container is left
completely unchanged — in particular a container that held a value still
holds exactly that value (same tag, same contents, same moved-from state):
the failure path only compares the stored type tag. -/
theorem C10_failed_cast_preserves (T : CType) (a : UniqueAny) (b : InplaceAny) :
    ((anyCastCref T a).1 = Except.error CastError.bad_any_cast → (anyCastCref T a).2 = a) ∧
    ((anyCastLref T a).1 = Except.error CastError.bad_any_cast → (anyCastLref T a).2 = a) ∧
    ((anyCastRval T a).1 = Except.error CastError.bad_any_cast → (anyCastRval T a).2 = a) ∧
    (∀ o, a.slot = some o → (anyCastRval T a).1 = Except.error CastError.bad_any_cast →
      (anyCastRval T a).2.slot = some o) ∧
    ((inplaceAnyCastCref T b).1 = Except.error InplaceCastError.bad_inplace_unique_any_cast →
      (inplaceAnyCastCref T b).2 = b) ∧
    ((inplaceAnyCastLref T b).1 = Except.error InplaceCastError.bad_inplace_unique_any_cast →
      (inplaceAnyCastLref T b).2 = b) ∧
    ((inplaceAnyCastRval T b).1 = Except.error InplaceCastError.bad_inplace_unique_any_cast →
      (inplaceAnyCastRval T b).2 = b) ∧
    (∀ o, b.slot = some o →
      (inplaceAnyCastRval T b).1 = Except.error InplaceCastError.bad_inplace_unique_any_cast →
      (inplaceAnyCastRval T b).2.slot = some o) := by
  refine ⟨?_, ?_, ?_, ?_, ?_, ?_, ?_, ?_⟩
  · cases hc : anyCastPtr T (some a) <;> simp [anyCastCref, hc]
  · cases hc : anyCastPtr T (some a) <;> simp [anyCastLref, hc]
  · cases hc : anyCastPtr T (some a) <;> simp [anyCastRval, hc]
  · intro o ho
    cases hc : anyCastPtr T (some a) <;> simp [anyCastRval, hc, ho]
  · cases hc : inplaceAnyCastPtr T (some b) <;> simp [inplaceAnyCastCref, hc]
  · cases hc : inplaceAnyCastPtr T (some b) <;> simp [inplaceAnyCastLref, hc]
  · cases hc : inplaceAnyCastPtr T (some b) <;> simp [inplaceAnyCastRval, hc]
  · intro o ho
    cases hc : inplaceAnyCastPtr T (some b) <;> simp [inplaceAnyCastRval, hc, ho]

/-- Witness for C10 at a concrete input: after a failed lvalue cast (wrong
requested type) the heap container still holds its string value. -/
theorem C10_failed_cast_preserves_w :
    (anyCastLref intT ⟨some ⟨strT, 3, false⟩⟩).2 = ⟨some ⟨strT, 3, false⟩⟩ :=
  (C10_failed_cast_preserves intT ⟨some ⟨strT, 3, false⟩⟩ ⟨none⟩).2.1 rfl

end Mcpp
